import Mathlib

/-!
Shallow embedding of the TCP hole-punching core (`holepunch.py`) and proofs
of the specification claims about it.

The Python code is asynchronous and effectful; we model each coroutine as a
pure function over an explicit environment describing the outcomes of its
I/O interactions (per-attempt connect results, platform capabilities, arrival
times of inbound connections), and over an explicit cooperative-cancellation
point.  Durations are rationals.  Each function returns the observable trace
of socket-lifecycle events it performs together with its result and its
elapsed running time, so resource claims (sockets closed, attempt counts,
time bounds) become statements about the trace.
-/

/-- Outcome of one iteration of the connect loop, as seen from the attempt's
environment (`tcp_hole_punch_connect`, lines 102-152 of `holepunch.py`):
either the socket setup region raises (caught by the outer
`except Exception`), or the connect phase fails with one of
`asyncio.TimeoutError` / `ConnectionRefusedError` / `OSError` (caught by the
inner handler, which closes the socket), or the connect succeeds and the
socket is turned into a stream pair. -/
inductive AttemptOutcome where
  | connected
  | connectFail
  | bindError
  deriving DecidableEq, Repr

/-- Cooperative-cancellation point for the connect coroutine: cancellation is
observed at a suspension point.  `atSleep i` means CancelledError is raised
at attempt i's `asyncio.sleep(delay)` (before attempt i's socket exists);
`atConnect i` means it is raised while attempt i is suspended in
`asyncio.wait_for(sock_connect ...)` or `asyncio.open_connection`. -/
inductive CancelPoint where
  | never
  | atSleep (i : Nat)
  | atConnect (i : Nat)
  deriving DecidableEq, Repr

/-- Observable socket-lifecycle events of the connect loop.  Socket of
attempt i is identified by i (a fresh socket is created per attempt). -/
inductive Ev where
  | sleep (i : Nat)
  | punchAttempt (n : Nat)
  | sockCreate (i : Nat)
  | sockBind (i : Nat)
  | connectTry (i : Nat)
  | sockClose (i : Nat)
  deriving DecidableEq, Repr

/-- Result of the connect coroutine: a stream pair made from attempt i's
socket (`return reader, writer`), `return None`, or propagation of
CancelledError out of the coroutine. -/
inductive ConnResult where
  | streams (i : Nat)
  | noResult
  | cancelled
  deriving DecidableEq, Repr

/-- Module constant: the per-attempt connect timeout hard-coded in
`asyncio.wait_for(..., timeout=2.0)` (line 131). -/
def connect_attempt_timeout : Rat := 2

/-- Setting SO_REUSEPORT on the attempt socket (line 117): raises on
platforms that do not support it. -/
def set_reuse_port (fails : Bool) : Except Unit Unit :=
  if fails then Except.error () else Except.ok ()

/-- Lines 116-119: `try: sock.setsockopt(..., SO_REUSEPORT, 1)`
`except (AttributeError, OSError): pass` — the failure is swallowed and
nothing of it is used afterwards. -/
def try_set_reuse_port (fails : Bool) : Unit :=
  match set_reuse_port fails with
  | Except.ok u => u
  | Except.error _ => ()

/-- Environment of one call to `tcp_hole_punch_connect`: for each 0-based
attempt index, what its outcome would be, whether enabling SO_REUSEPORT
fails on this platform, and how long the connect phase would run before
producing that outcome (truncated by `wait_for` at
`connect_attempt_timeout`). -/
structure ConnectEnv where
  outcome : Nat → AttemptOutcome
  reuseFails : Nat → Bool
  phaseTime : Nat → Rat

/-- The body of the `for attempt in range(max_attempts)` loop of
`tcp_hole_punch_connect` (lines 102-152), with `rem + 1` iterations left and
current 0-based attempt index `i`.  Per iteration: sleep `delay`; create a
fresh socket; set SO_REUSEADDR; best-effort SO_REUSEPORT; bind; then the
guarded connect.  A raise in the setup region (`bindError`) reaches the
outer `except Exception`, which does NOT close the socket; an inner failure
(`connectFail`) is caught by
`except (asyncio.TimeoutError, ConnectionRefusedError, OSError)`, which does
close it.  CancelledError is a BaseException: neither handler catches it, so
a cancellation at a suspension point ends the coroutine right there.
Returns (event trace, result, elapsed time). -/
def connectGo (outcome : Nat → AttemptOutcome) (reuseFails : Nat → Bool)
    (phaseTime : Nat → Rat) (delay : Rat) (cancel : CancelPoint) :
    Nat → Nat → List Ev × ConnResult × Rat
  | 0, _ => ([], ConnResult.noResult, 0)
  | rem + 1, i =>
    if cancel = CancelPoint.atSleep i then
      ([Ev.sleep i], ConnResult.cancelled, delay)
    else
      let _u : Unit := try_set_reuse_port (reuseFails i)
      match outcome i with
      | AttemptOutcome.bindError =>
        if rem = 0 then
          ([Ev.sleep i, Ev.punchAttempt (i + 1), Ev.sockCreate i],
            ConnResult.noResult, delay)
        else
          let rest := connectGo outcome reuseFails phaseTime delay cancel rem (i + 1)
          ([Ev.sleep i, Ev.punchAttempt (i + 1), Ev.sockCreate i] ++ rest.1,
            rest.2.1, delay + rest.2.2)
      | AttemptOutcome.connected =>
        if cancel = CancelPoint.atConnect i then
          ([Ev.sleep i, Ev.punchAttempt (i + 1), Ev.sockCreate i,
              Ev.sockBind i, Ev.connectTry i],
            ConnResult.cancelled, delay + min (phaseTime i) connect_attempt_timeout)
        else
          ([Ev.sleep i, Ev.punchAttempt (i + 1), Ev.sockCreate i,
              Ev.sockBind i, Ev.connectTry i],
            ConnResult.streams i, delay + min (phaseTime i) connect_attempt_timeout)
      | AttemptOutcome.connectFail =>
        if cancel = CancelPoint.atConnect i then
          ([Ev.sleep i, Ev.punchAttempt (i + 1), Ev.sockCreate i,
              Ev.sockBind i, Ev.connectTry i],
            ConnResult.cancelled, delay + min (phaseTime i) connect_attempt_timeout)
        else if rem = 0 then
          ([Ev.sleep i, Ev.punchAttempt (i + 1), Ev.sockCreate i,
              Ev.sockBind i, Ev.connectTry i, Ev.sockClose i],
            ConnResult.noResult, delay + min (phaseTime i) connect_attempt_timeout)
        else
          let rest := connectGo outcome reuseFails phaseTime delay cancel rem (i + 1)
          ([Ev.sleep i, Ev.punchAttempt (i + 1), Ev.sockCreate i,
              Ev.sockBind i, Ev.connectTry i, Ev.sockClose i] ++ rest.1,
            rest.2.1, delay + min (phaseTime i) connect_attempt_timeout + rest.2.2)

/-- `tcp_hole_punch_connect(local_port, remote_ip, remote_port, delay,
max_attempts)` (lines 89-152).  The addresses do not influence control flow
in the model (they only parameterize the environment), so they are elided. -/
def tcp_hole_punch_connect (delay : Rat) (maxAttempts : Nat) (env : ConnectEnv)
    (cancel : CancelPoint) : List Ev × ConnResult × Rat :=
  connectGo env.outcome env.reuseFails env.phaseTime delay cancel maxAttempts 0

/-- Default inter-attempt delay of `tcp_hole_punch_connect` (line 93). -/
def connect_delay_default : Rat := 1 / 2

/-- Default maximum attempt count of `tcp_hole_punch_connect` (line 94). -/
def max_attempts_default : Nat := 10

/-- Recognizer for punch-attempt trace events. -/
def isPunchAttempt : Ev → Bool
  | Ev.punchAttempt _ => true
  | _ => false

/-- Number of connect attempts recorded in a trace. -/
def attemptCount (evs : List Ev) : Nat := (evs.filter isPunchAttempt).length

/-- Environment of one call to `tcp_hole_punch_listen`: whether the platform
supports SO_REUSEPORT (`asyncio.start_server(..., reuse_port=True)` raises
when it does not), whether server setup otherwise succeeds (bind etc.), and
the arrival time of the first inbound connection relative to the start of
the call, if any ever arrives. -/
structure ListenEnv where
  reusePortSupported : Bool
  serverOk : Bool
  inboundAt : Option Rat

/-- Identifier of the stream produced by the listen half's accepted inbound
connection. -/
def listen_stream_id : Nat := 0

/-- `tcp_hole_punch_listen(local_port, timeout)` (lines 50-87).  Passing
`reuse_port=True` to `asyncio.start_server` raises ValueError on platforms
without SO_REUSEPORT; that raise, like any other server-setup error, is
caught by the `except Exception` at line 80 and the call returns None.
Otherwise the call waits for the first inbound connection under
`asyncio.wait_for(connection_future, timeout=timeout)` and returns it, or
returns None on `asyncio.TimeoutError`.  Result: (completion time relative
to the call's start, optional stream). -/
def tcp_hole_punch_listen (timeout : Rat) (env : ListenEnv) : Rat × Option Nat :=
  if env.reusePortSupported && env.serverOk then
    match env.inboundAt with
    | some t => if t ≤ timeout then (t, some listen_stream_id) else (timeout, none)
    | none => (timeout, none)
  else (0, none)

/-- `if not connection_future.done(): connection_future.set_result(...)`
(lines 60-62): the listen half's single result slot, written only when still
empty.  `slot` is the future's state, `conn` the newly accepted stream. -/
def handle_client (slot : Option Nat) (conn : Nat) : Option Nat :=
  if slot.isSome then slot else some conn

/-- The startup stagger `await asyncio.sleep(0.5)` between launching the
listen task and the connect task (line 173). -/
def listen_stagger : Rat := 1 / 2

/-- Lines 180-191: `asyncio.wait([listen_task, connect_task],
return_when=asyncio.FIRST_COMPLETED)` followed by cancel-and-await of the
pending task.  The call carries NO timeout argument, so it returns at the
first task completion, whenever that is; it cannot return before it starts
(at `listen_stagger`, after the startup sleep).  Arguments are the absolute
completion times of the two tasks. -/
def orchestrator_wait (listenDone connectDone : Rat) : Rat :=
  max listen_stagger (min listenDone connectDone)

/-- Lines 193-197: `for task in done: result = task.result();
if result is not None: return result` and the final `return None` — the
first non-None result among the completed tasks' results wins. -/
def pick_result : List (Option Nat) → Option Nat
  | [] => none
  | some r :: _ => some r
  | none :: rest => pick_result rest

/-- View of the connect coroutine's result as the orchestrator sees it via
`task.result()`: a stream pair or None.  Stream ids of the connect half are
offset by one so they are distinct from `listen_stream_id`. -/
def connect_result_view : ConnResult → Option Nat
  | ConnResult.streams i => some (i + 1)
  | _ => none

/-- `simultaneous_open(local_port, remote_ip, remote_port, timeout)`
(lines 155-198).  The `timeout` parameter is passed to the listen half only
(line 170); the connect half is launched with no optional arguments
(lines 175-177), hence with the module defaults.  The listen task starts at
time 0, the connect task at `listen_stagger`.  `asyncio.wait` returns at the
first completion; the pending task is cancelled and awaited; the first
non-None result among the done tasks is returned.  `listenFirst` fixes the
iteration order of the done set (a Python set, unordered) when both tasks
completed.  Result: (return time, optional stream). -/
def simultaneous_open (timeout : Rat) (lenv : ListenEnv) (cenv : ConnectEnv)
    (listenFirst : Bool) : Rat × Option Nat :=
  let l := tcp_hole_punch_listen timeout lenv
  let c := tcp_hole_punch_connect connect_delay_default max_attempts_default cenv
    CancelPoint.never
  let listenDone := l.1
  let connectDone := listen_stagger + c.2.2
  let waitEnd := orchestrator_wait listenDone connectDone
  let cRes := connect_result_view c.2.1
  let done : List (Option Nat) :=
    if listenDone ≤ waitEnd ∧ connectDone ≤ waitEnd then
      if listenFirst then [l.2, cRes] else [cRes, l.2]
    else if listenDone ≤ waitEnd then [l.2]
    else [cRes]
  (waitEnd, pick_result done)

/-- Stage of the throwaway-UDP-socket probe of `get_local_ip` at which a
failure can occur (lines 17-19). -/
inductive UdpStep where
  | createSocket
  | connectProbe
  | getsockname
  deriving DecidableEq, Repr

/-- Environment of `get_local_ip`: the probe either yields the OS-assigned
source address of the throwaway socket, or raises at some stage. -/
inductive UdpEnv where
  | ok (sourceIp : String)
  | failAt (s : UdpStep)
  deriving DecidableEq, Repr

/-- The body of the `try` block of `get_local_ip` (lines 15-21): create a
UDP socket, connect it to the well-known address, read back the local
address. -/
def udp_probe : UdpEnv → Except UdpStep String
  | UdpEnv.ok sourceIp => Except.ok sourceIp
  | UdpEnv.failAt s => Except.error s

/-- `get_local_ip()` (lines 13-23): the probe's address on success, the
loopback address on any failure (`except Exception: return "127.0.0.1"`). -/
def get_local_ip (env : UdpEnv) : String :=
  match udp_probe env with
  | Except.ok ip => ip
  | Except.error _ => "127.0.0.1"

/-- The ordered list of external IP-echo services of `get_public_ip`
(lines 30-34). -/
def services : List String :=
  ["https://api.ipify.org?format=text", "https://icanhazip.com",
    "https://ifconfig.me/ip"]

/-- Whether one service interaction produced an HTTP 200 response: any
raised exception (network error, timeout) is `Except.error`, a received
response carries its status code and body text. -/
def succeeds200 : Except Unit (Nat × String) → Bool
  | Except.ok (status, _) => status == 200
  | Except.error _ => false

/-- The `for service in services` loop of `get_public_ip` (lines 36-47):
each service is queried inside `try ... except Exception: continue`; a
response with status 200 returns its stripped body; anything else moves on
to the next service; after the loop, `return await get_local_ip()`. -/
def fetch_loop (fetch : String → Except Unit (Nat × String)) (env : UdpEnv) :
    List String → String
  | [] => get_local_ip env
  | svc :: rest =>
    match fetch svc with
    | Except.ok (status, body) =>
      if status = 200 then body.trim else fetch_loop fetch env rest
    | Except.error _ => fetch_loop fetch env rest

/-- `get_public_ip()` (lines 26-47). -/
def get_public_ip (fetch : String → Except Unit (Nat × String)) (env : UdpEnv) :
    String :=
  fetch_loop fetch env services

theorem connectGo_punch_range (outcome : Nat → AttemptOutcome) (reuseFails : Nat → Bool)
    (phaseTime : Nat → Rat) (delay : Rat) (cancel : CancelPoint) :
    ∀ rem i n, Ev.punchAttempt n ∈
        (connectGo outcome reuseFails phaseTime delay cancel rem i).1 →
      i + 1 ≤ n ∧ n ≤ i + rem := by
  intro rem
  induction rem with
  | zero => intro i n h; simp [connectGo] at h
  | succ rem ih =>
    intro i n h
    simp only [connectGo] at h
    by_cases hs : cancel = CancelPoint.atSleep i
    · simp [hs] at h
    · simp only [if_neg hs] at h
      cases ho : outcome i <;> simp only [ho] at h
      · by_cases hc : cancel = CancelPoint.atConnect i <;>
          simp [hc, List.mem_cons] at h <;> omega
      · by_cases hc : cancel = CancelPoint.atConnect i
        · simp [hc, List.mem_cons] at h; omega
        · by_cases hr : rem = 0
          · simp [hc, hr, List.mem_cons] at h; omega
          · simp only [if_neg hc, if_neg hr] at h
            simp [List.mem_append, List.mem_cons] at h
            rcases h with h | h
            · omega
            · have := ih (i + 1) n (by simpa using h)
              omega
      · by_cases hr : rem = 0
        · simp [hr, List.mem_cons] at h; omega
        · simp only [if_neg hr] at h
          simp [List.mem_append, List.mem_cons] at h
          rcases h with h | h
          · omega
          · have := ih (i + 1) n (by simpa using h)
            omega

theorem connectGo_attemptCount (outcome : Nat → AttemptOutcome) (reuseFails : Nat → Bool)
    (phaseTime : Nat → Rat) (delay : Rat) (cancel : CancelPoint) :
    ∀ rem i, attemptCount (connectGo outcome reuseFails phaseTime delay cancel rem i).1 ≤ rem := by
  intro rem
  induction rem with
  | zero => intro i; simp [connectGo, attemptCount]
  | succ rem ih =>
    intro i
    simp only [connectGo]
    by_cases hs : cancel = CancelPoint.atSleep i
    · simp [hs, attemptCount, isPunchAttempt]
    · simp only [if_neg hs]
      cases ho : outcome i
      · by_cases hc : cancel = CancelPoint.atConnect i <;>
          simp [hc, attemptCount, isPunchAttempt]
      · by_cases hc : cancel = CancelPoint.atConnect i
        · simp [hc, attemptCount, isPunchAttempt]
        · by_cases hr : rem = 0
          · simp [hc, hr, attemptCount, isPunchAttempt]
          · simp only [if_neg hc, if_neg hr]
            have := ih (i + 1)
            simp [attemptCount, isPunchAttempt, List.filter_append] at this ⊢
            omega
      · by_cases hr : rem = 0
        · simp [hr, attemptCount, isPunchAttempt]
        · simp only [if_neg hr]
          have := ih (i + 1)
          simp [attemptCount, isPunchAttempt, List.filter_append] at this ⊢
          omega

theorem connectGo_exhausted (outcome : Nat → AttemptOutcome) (reuseFails : Nat → Bool)
    (phaseTime : Nat → Rat) (delay : Rat)
    (hno : ∀ j, outcome j ≠ AttemptOutcome.connected) :
    ∀ rem i,
      (connectGo outcome reuseFails phaseTime delay CancelPoint.never rem i).2.1 =
        ConnResult.noResult := by
  intro rem
  induction rem with
  | zero => intro i; simp [connectGo]
  | succ rem ih =>
    intro i
    simp only [connectGo]
    cases ho : outcome i
    · exact absurd ho (hno i)
    · by_cases hr : rem = 0 <;> simp [hr, ih (i + 1)]
    · by_cases hr : rem = 0 <;> simp [hr, ih (i + 1)]

theorem connectGo_close_on_connectFail (outcome : Nat → AttemptOutcome)
    (reuseFails : Nat → Bool) (phaseTime : Nat → Rat) (delay : Rat) :
    ∀ rem i k, k < rem → (∀ j, j < k → outcome (i + j) ≠ AttemptOutcome.connected) →
      outcome (i + k) = AttemptOutcome.connectFail →
      Ev.sockClose (i + k) ∈
        (connectGo outcome reuseFails phaseTime delay CancelPoint.never rem i).1 := by
  intro rem
  induction rem with
  | zero => intro i k hk; omega
  | succ rem ih =>
    intro i k hk hprev hout
    simp only [connectGo]
    cases k with
    | zero =>
      simp only [Nat.add_zero] at hout
      simp only [hout]
      by_cases hr : rem = 0 <;> simp [hr, List.mem_append]
    | succ k =>
      have hk' : k < rem := by omega
      have h0 : outcome i ≠ AttemptOutcome.connected := by
        have := hprev 0 (by omega); simpa using this
      have hrest : Ev.sockClose (i + 1 + k) ∈
          (connectGo outcome reuseFails phaseTime delay CancelPoint.never rem (i + 1)).1 := by
        apply ih (i + 1) k hk'
        · intro j hj
          have := hprev (j + 1) (by omega)
          simpa [Nat.add_assoc, Nat.add_comm, Nat.add_left_comm] using this
        · simpa [Nat.add_assoc, Nat.add_comm, Nat.add_left_comm] using hout
      have hik : i + 1 + k = i + (k + 1) := by omega
      rw [hik] at hrest
      cases ho : outcome i
      · exact absurd ho h0
      · have hr : rem ≠ 0 := by omega
        simp [hr, List.mem_append, hrest]
      · have hr : rem ≠ 0 := by omega
        simp [hr, List.mem_append, hrest]

theorem connectGo_time_bound (outcome : Nat → AttemptOutcome) (reuseFails : Nat → Bool)
    (phaseTime : Nat → Rat) (delay : Rat) (cancel : CancelPoint)
    (hd : 0 ≤ delay) :
    ∀ rem i, (connectGo outcome reuseFails phaseTime delay cancel rem i).2.2 ≤
      rem * (delay + connect_attempt_timeout) := by
  have hcat : (0 : Rat) ≤ connect_attempt_timeout := by norm_num [connect_attempt_timeout]
  intro rem
  induction rem with
  | zero => intro i; simp [connectGo]
  | succ rem ih =>
    intro i
    have hmul : (0 : Rat) ≤ (rem : Rat) * (delay + connect_attempt_timeout) :=
      mul_nonneg (by positivity) (by linarith)
    have hcast : ((rem + 1 : Nat) : Rat) * (delay + connect_attempt_timeout) =
        (rem : Rat) * (delay + connect_attempt_timeout) + (delay + connect_attempt_timeout) := by
      push_cast; ring
    have hmin : min (phaseTime i) connect_attempt_timeout ≤ connect_attempt_timeout :=
      min_le_right _ _
    have hrest := ih (i + 1)
    simp only [connectGo]
    by_cases hs : cancel = CancelPoint.atSleep i
    · simp only [if_pos hs]
      rw [hcast]; linarith
    · simp only [if_neg hs]
      cases ho : outcome i
      · by_cases hc : cancel = CancelPoint.atConnect i
        · simp only [if_pos hc]
          rw [hcast]; linarith
        · simp only [if_neg hc]
          rw [hcast]; linarith
      · by_cases hc : cancel = CancelPoint.atConnect i
        · simp only [if_pos hc]
          rw [hcast]; linarith
        · by_cases hr : rem = 0
          · simp only [if_neg hc, if_pos hr]
            rw [hcast]; linarith
          · simp only [if_neg hc, if_neg hr]
            rw [hcast]; linarith
      · by_cases hr : rem = 0
        · simp only [if_pos hr]
          rw [hcast]; linarith
        · simp only [if_neg hr]
          rw [hcast]; linarith

theorem connectGo_reuse_independent (outcome : Nat → AttemptOutcome)
    (phaseTime : Nat → Rat) (delay : Rat) (cancel : CancelPoint) (f g : Nat → Bool) :
    ∀ rem i, connectGo outcome f phaseTime delay cancel rem i =
      connectGo outcome g phaseTime delay cancel rem i := by
  intro rem
  induction rem with
  | zero => intro i; rfl
  | succ rem ih =>
    intro i
    simp only [connectGo]
    rw [ih (i + 1)]

theorem listen_completes_by_timeout (timeout : Rat) (env : ListenEnv)
    (h : 0 ≤ timeout) : (tcp_hole_punch_listen timeout env).1 ≤ timeout := by
  unfold tcp_hole_punch_listen
  by_cases hok : env.reusePortSupported && env.serverOk
  · simp only [if_pos hok]
    cases hin : env.inboundAt with
    | none => simp
    | some t =>
      by_cases ht : t ≤ timeout
      · simp [ht]
      · simp [ht]
  · simp [hok, h]

theorem pick_result_cases : ∀ ds : List (Option Nat),
    pick_result ds = none ∨ pick_result ds ∈ ds := by
  intro ds
  induction ds with
  | nil => left; rfl
  | cons d rest ih =>
    cases d with
    | some r => right; simp [pick_result]
    | none =>
      rcases ih with h | h
      · left; simpa [pick_result] using h
      · right; simp [pick_result]; right; exact h

theorem handle_client_keeps (s x : Nat) : handle_client (some s) x = some s := by
  simp [handle_client]

theorem foldl_handle_client_some (c : Nat) :
    ∀ cs : List Nat, List.foldl handle_client (some c) cs = some c := by
  intro cs
  induction cs with
  | nil => rfl
  | cons x rest ih => simp [List.foldl, handle_client, ih]

theorem simultaneous_open_return_time (timeout : Rat) (lenv : ListenEnv)
    (cenv : ConnectEnv) (listenFirst : Bool) (h : 0 ≤ timeout) :
    (simultaneous_open timeout lenv cenv listenFirst).1 ≤ timeout + listen_stagger := by
  have hl := listen_completes_by_timeout timeout lenv h
  have hs : (0 : Rat) ≤ listen_stagger := by norm_num [listen_stagger]
  simp only [simultaneous_open, orchestrator_wait]
  apply max_le
  · linarith
  · calc min (tcp_hole_punch_listen timeout lenv).1 _ ≤
        (tcp_hole_punch_listen timeout lenv).1 := min_le_left _ _
      _ ≤ timeout := hl
      _ ≤ timeout + listen_stagger := by linarith

theorem simultaneous_open_timeout_only_listen (t1 t2 : Rat) (lenv : ListenEnv)
    (cenv : ConnectEnv) (listenFirst : Bool)
    (h : tcp_hole_punch_listen t1 lenv = tcp_hole_punch_listen t2 lenv) :
    simultaneous_open t1 lenv cenv listenFirst = simultaneous_open t2 lenv cenv listenFirst := by
  simp only [simultaneous_open, h]

theorem simultaneous_open_result_sources (timeout : Rat) (lenv : ListenEnv)
    (cenv : ConnectEnv) (listenFirst : Bool) :
    (simultaneous_open timeout lenv cenv listenFirst).2 = none ∨
    (simultaneous_open timeout lenv cenv listenFirst).2 = (tcp_hole_punch_listen timeout lenv).2 ∨
    (simultaneous_open timeout lenv cenv listenFirst).2 =
      connect_result_view (tcp_hole_punch_connect connect_delay_default max_attempts_default
        cenv CancelPoint.never).2.1 := by
  simp only [simultaneous_open]
  split
  · cases listenFirst
    all_goals {
      simp only [if_true, if_false, Bool.false_eq_true]
      rcases pick_result_cases _ with h | h
      · left; exact h
      · simp only [List.mem_cons, List.not_mem_nil, or_false] at h
        rcases h with h | h <;> simp [h] }
  · split
    all_goals {
      rcases pick_result_cases _ with h | h
      · left; exact h
      · simp only [List.mem_cons, List.not_mem_nil, or_false] at h
        simp [h] }

theorem fetch_loop_skips_failure (fetch : String → Except Unit (Nat × String))
    (env : UdpEnv) (svc : String) (rest : List String)
    (h : succeeds200 (fetch svc) = false) :
    fetch_loop fetch env (svc :: rest) = fetch_loop fetch env rest := by
  cases hf : fetch svc with
  | error e => simp [fetch_loop, hf]
  | ok p =>
    obtain ⟨status, body⟩ := p
    have hb : (status == 200) = false := by simpa [succeeds200, hf] using h
    have hne : status ≠ 200 := by simpa using hb
    simp [fetch_loop, hf, hne]

theorem fetch_loop_all_fail (fetch : String → Except Unit (Nat × String)) (env : UdpEnv) :
    ∀ svcs : List String, (∀ svc ∈ svcs, succeeds200 (fetch svc) = false) →
      fetch_loop fetch env svcs = get_local_ip env := by
  intro svcs
  induction svcs with
  | nil => intro _; rfl
  | cons svc rest ih =>
    intro hall
    rw [fetch_loop_skips_failure fetch env svc rest (hall svc (by simp))]
    exact ih (fun s hs => hall s (by simp [hs]))

/-- Claim C1, checked at the failing input: when `tcp_hole_punch_connect`
(as launched by `simultaneous_open`, with the module defaults) is cancelled
while attempt 1 is suspended in the in-flight connect, the CancelledError
propagates past both `except` clauses — which catch only `Exception`
subclasses — so the coroutine ends as cancelled with attempt 1's socket
created but never closed.  This contradicts the claimed invariant that the
losing path's socket is always closed before `simultaneous_open` returns. -/
theorem connect_cancel_leaves_socket_open :
    (tcp_hole_punch_connect connect_delay_default max_attempts_default
      ⟨fun _ => AttemptOutcome.connectFail, fun _ => false, fun _ => 1⟩
      (CancelPoint.atConnect 0)).2.1 = ConnResult.cancelled ∧
    Ev.sockCreate 0 ∈ (tcp_hole_punch_connect connect_delay_default max_attempts_default
      ⟨fun _ => AttemptOutcome.connectFail, fun _ => false, fun _ => 1⟩
      (CancelPoint.atConnect 0)).1 ∧
    Ev.sockClose 0 ∉ (tcp_hole_punch_connect connect_delay_default max_attempts_default
      ⟨fun _ => AttemptOutcome.connectFail, fun _ => false, fun _ => 1⟩
      (CancelPoint.atConnect 0)).1 := by decide

/-- Claim C2, counterexample: the orchestrator's wait (`asyncio.wait` with
`return_when=FIRST_COMPLETED` and no timeout argument) does not enforce any
overall timeout of its own: if both halves were still pending at time 1000,
the wait would return only at 1000, far beyond an overall timeout of 1 plus
any bounded grace (here 100) — so the claimed orchestrator-side enforcement,
independent of the halves' internal timeouts, does not exist. -/
theorem orchestrator_wait_unbounded_cex :
    orchestrator_wait 1000 1000 = 1000 ∧
    ¬ (orchestrator_wait 1000 1000 ≤ 1 + 100) := by
  have h : orchestrator_wait 1000 1000 = 1000 := by
    norm_num [orchestrator_wait, listen_stagger, min_def, max_def]
  refine ⟨h, ?_⟩
  rw [h]; norm_num

/-- Claim C2 as amended: `simultaneous_open` does return within
`timeout + listen_stagger`, but the bound comes from the listen half's own
`wait_for(..., timeout=timeout)` completing by `timeout`, not from the
orchestrator's wait, which has no timeout argument and cancels nothing at
the overall timeout's expiry. -/
theorem simultaneous_open_returns_by_listen_timeout (timeout : Rat)
    (lenv : ListenEnv) (cenv : ConnectEnv) (listenFirst : Bool)
    (h : 0 ≤ timeout) :
    (simultaneous_open timeout lenv cenv listenFirst).1 ≤ timeout + listen_stagger :=
  simultaneous_open_return_time timeout lenv cenv listenFirst h

/-- Witness for claim C2's amended theorem at a concrete configuration. -/
theorem simultaneous_open_returns_by_listen_timeout_witness :
    (simultaneous_open 30 ⟨true, true, none⟩
      ⟨fun _ => AttemptOutcome.connectFail, fun _ => false, fun _ => 1⟩ true).1 ≤
      30 + listen_stagger :=
  simultaneous_open_returns_by_listen_timeout 30 ⟨true, true, none⟩
    ⟨fun _ => AttemptOutcome.connectFail, fun _ => false, fun _ => 1⟩ true (by norm_num)

/-- Claim C3: for any `max_attempts ≥ 1`, the connect loop records at most
`max_attempts` punch attempts, every recorded attempt number n satisfies
`1 ≤ n ≤ max_attempts` (numbering starts at 1), and when every attempt ends
without a connection (and the coroutine is not cancelled) the loop
terminates with None rather than hanging or raising. -/
theorem connect_attempts_bounded (delay : Rat) (maxAttempts : Nat)
    (env : ConnectEnv) (cancel : CancelPoint) (hmax : 1 ≤ maxAttempts) :
    attemptCount (tcp_hole_punch_connect delay maxAttempts env cancel).1 ≤ maxAttempts ∧
    (∀ n, Ev.punchAttempt n ∈ (tcp_hole_punch_connect delay maxAttempts env cancel).1 →
      1 ≤ n ∧ n ≤ maxAttempts) ∧
    ((∀ i, env.outcome i ≠ AttemptOutcome.connected) →
      (tcp_hole_punch_connect delay maxAttempts env CancelPoint.never).2.1 =
        ConnResult.noResult) := by
  refine ⟨?_, ?_, ?_⟩
  · exact connectGo_attemptCount env.outcome env.reuseFails env.phaseTime delay cancel
      maxAttempts 0
  · intro n hn
    have := connectGo_punch_range env.outcome env.reuseFails env.phaseTime delay cancel
      maxAttempts 0 n hn
    omega
  · intro hno
    exact connectGo_exhausted env.outcome env.reuseFails env.phaseTime delay hno
      maxAttempts 0

/-- Witness for claim C3 at a concrete exhausted run of two attempts. -/
theorem connect_attempts_bounded_witness :
    attemptCount (tcp_hole_punch_connect 1 2
      ⟨fun _ => AttemptOutcome.connectFail, fun _ => false, fun _ => 1⟩
      CancelPoint.never).1 ≤ 2 ∧
    (tcp_hole_punch_connect 1 2
      ⟨fun _ => AttemptOutcome.connectFail, fun _ => false, fun _ => 1⟩
      CancelPoint.never).2.1 = ConnResult.noResult :=
  ⟨(connect_attempts_bounded 1 2
      ⟨fun _ => AttemptOutcome.connectFail, fun _ => false, fun _ => 1⟩
      CancelPoint.never (by decide)).1,
    (connect_attempts_bounded 1 2
      ⟨fun _ => AttemptOutcome.connectFail, fun _ => false, fun _ => 1⟩
      CancelPoint.never (by decide)).2.2 (fun _ h => AttemptOutcome.noConfusion h)⟩

/-- Claim C4: `get_public_ip` absorbs every per-service failure (raised
exception or non-200 status) and moves on to the next service, and when all
services fail it returns exactly `get_local_ip`'s value; its result type in
the model is a plain string because no failure escapes to the caller. -/
theorem public_ip_fallback (fetch : String → Except Unit (Nat × String))
    (env : UdpEnv) (hall : ∀ svc ∈ services, succeeds200 (fetch svc) = false) :
    get_public_ip fetch env = get_local_ip env ∧
    (∀ svc rest, succeeds200 (fetch svc) = false →
      fetch_loop fetch env (svc :: rest) = fetch_loop fetch env rest) :=
  ⟨fetch_loop_all_fail fetch env services hall,
    fun svc rest h => fetch_loop_skips_failure fetch env svc rest h⟩

/-- Witness for claim C4: every service raising gives the local address. -/
theorem public_ip_fallback_witness :
    get_public_ip (fun _ => Except.error ()) (UdpEnv.failAt UdpStep.createSocket) =
      get_local_ip (UdpEnv.failAt UdpStep.createSocket) :=
  (public_ip_fallback (fun _ => Except.error ()) (UdpEnv.failAt UdpStep.createSocket)
    (fun _ _ => rfl)).1

/-- Claim C5, counterexample: in the listen half an unsupported SO_REUSEPORT
is fatal, not best-effort — `asyncio.start_server(..., reuse_port=True)`
raises, the `except Exception` returns None, and the very inbound connection
that would have been accepted on a supporting platform yields no result. -/
theorem listen_reuse_port_fatal_cex :
    (tcp_hole_punch_listen 30 ⟨false, true, some 1⟩).2 = none ∧
    (tcp_hole_punch_listen 30 ⟨true, true, some 1⟩).2 = some listen_stream_id := by
  decide

/-- Claim C5 as amended: in the connect half a failed SO_REUSEPORT
enablement is silently ignored — the whole run (trace, result, timing) is
unchanged whichever attempts' reuse-port calls fail, and only the bind is
load-bearing — while in the listen half a platform without SO_REUSEPORT
support makes the listen yield no result. -/
theorem reuse_port_best_effort_split (delay : Rat) (maxAttempts : Nat)
    (outcome : Nat → AttemptOutcome) (phaseTime : Nat → Rat)
    (cancel : CancelPoint) (f g : Nat → Bool) (timeout : Rat) (serverOk : Bool)
    (inboundAt : Option Rat) :
    tcp_hole_punch_connect delay maxAttempts ⟨outcome, f, phaseTime⟩ cancel =
      tcp_hole_punch_connect delay maxAttempts ⟨outcome, g, phaseTime⟩ cancel ∧
    (tcp_hole_punch_listen timeout ⟨false, serverOk, inboundAt⟩).2 = none := by
  constructor
  · exact connectGo_reuse_independent outcome phaseTime delay cancel f g maxAttempts 0
  · simp [tcp_hole_punch_listen]

/-- Claim C6, counterexample: an attempt whose bind raises reaches the outer
`except Exception`, which closes nothing — the socket created for attempt 1
is never closed, yet the loop goes on to attempt 2, contradicting the claim
that every non-Connected attempt closes its socket before the loop retries
or terminates. -/
theorem bind_error_socket_unclosed_cex :
    Ev.sockCreate 0 ∈ (tcp_hole_punch_connect 1 2
      ⟨fun i => if i = 0 then AttemptOutcome.bindError else AttemptOutcome.connectFail,
        fun _ => false, fun _ => 1⟩ CancelPoint.never).1 ∧
    Ev.sockClose 0 ∉ (tcp_hole_punch_connect 1 2
      ⟨fun i => if i = 0 then AttemptOutcome.bindError else AttemptOutcome.connectFail,
        fun _ => false, fun _ => 1⟩ CancelPoint.never).1 ∧
    Ev.punchAttempt 2 ∈ (tcp_hole_punch_connect 1 2
      ⟨fun i => if i = 0 then AttemptOutcome.bindError else AttemptOutcome.connectFail,
        fun _ => false, fun _ => 1⟩ CancelPoint.never).1 := by decide

/-- Claim C6 as amended: attempts that fail in the connect phase proper
(refused / attempt timeout / OS error caught by the inner handler) do close
their socket before the loop retries or terminates; only errors raised in
the setup region before the connect (e.g. during bind) escape to the outer
handler, which does not close the attempt's socket. -/
theorem connect_phase_failures_close_socket (delay : Rat) (maxAttempts : Nat)
    (env : ConnectEnv) (k : Nat) (hk : k < maxAttempts)
    (hprev : ∀ j, j < k → env.outcome j ≠ AttemptOutcome.connected)
    (hout : env.outcome k = AttemptOutcome.connectFail) :
    Ev.sockClose k ∈
      (tcp_hole_punch_connect delay maxAttempts env CancelPoint.never).1 := by
  have h := connectGo_close_on_connectFail env.outcome env.reuseFails env.phaseTime delay
    maxAttempts 0 k hk (by simpa using hprev) (by simpa using hout)
  simpa [tcp_hole_punch_connect] using h

/-- Witness for claim C6's amended theorem: a single refused attempt closes
its socket. -/
theorem connect_phase_failures_close_socket_witness :
    Ev.sockClose 0 ∈ (tcp_hole_punch_connect 1 1
      ⟨fun _ => AttemptOutcome.connectFail, fun _ => false, fun _ => 1⟩
      CancelPoint.never).1 :=
  connect_phase_failures_close_socket 1 1
    ⟨fun _ => AttemptOutcome.connectFail, fun _ => false, fun _ => 1⟩ 0 (by decide)
    (fun j hj => absurd hj (Nat.not_lt_zero j)) rfl

/-- Claim C7: the listen half's single result slot is written at most once —
the first accepted inbound connection wins and every later write is a no-op,
not an error — and `simultaneous_open` returns at most one stream handle:
its result is either nothing, the listen half's handle, or the connect
half's handle. -/
theorem single_result_invariant :
    (∀ (c : Nat) (cs : List Nat), List.foldl handle_client none (c :: cs) = some c) ∧
    (∀ (s x : Nat), handle_client (some s) x = some s) ∧
    (∀ (timeout : Rat) (lenv : ListenEnv) (cenv : ConnectEnv) (listenFirst : Bool),
      (simultaneous_open timeout lenv cenv listenFirst).2 = none ∨
      (simultaneous_open timeout lenv cenv listenFirst).2 =
        (tcp_hole_punch_listen timeout lenv).2 ∨
      (simultaneous_open timeout lenv cenv listenFirst).2 =
        connect_result_view (tcp_hole_punch_connect connect_delay_default
          max_attempts_default cenv CancelPoint.never).2.1) := by
  refine ⟨?_, handle_client_keeps, simultaneous_open_result_sources⟩
  intro c cs
  have h1 : handle_client none c = some c := by simp [handle_client]
  simp only [List.foldl_cons, h1]
  exact foldl_handle_client_some c cs

/-- Claim C8: `get_local_ip` never signals an error — any failure of the
throwaway-UDP-socket probe yields the loopback address as a degraded
fallback, and a successful probe yields the OS-assigned source address. -/
theorem local_ip_fallback :
    (∀ s : UdpStep, get_local_ip (UdpEnv.failAt s) = "127.0.0.1") ∧
    (∀ ip : String, get_local_ip (UdpEnv.ok ip) = ip) :=
  ⟨fun _ => rfl, fun _ => rfl⟩

/-- Claim C9: `simultaneous_open` passes its `timeout` only to the listen
half — the orchestration result depends on `timeout` solely through the
listen half — while the connect half it launches always runs with the fixed
module defaults (0.5s inter-attempt delay, 10 attempts, 2.0s per-attempt
connect timeout), so its total running time is bounded by the constant
10 * (0.5 + 2.0) = 25, independent of the caller's timeout. -/
theorem connect_half_fixed_defaults :
    connect_delay_default = 1 / 2 ∧ max_attempts_default = 10 ∧
    connect_attempt_timeout = 2 ∧
    (∀ (t1 t2 : Rat) (lenv : ListenEnv) (cenv : ConnectEnv) (listenFirst : Bool),
      tcp_hole_punch_listen t1 lenv = tcp_hole_punch_listen t2 lenv →
      simultaneous_open t1 lenv cenv listenFirst =
        simultaneous_open t2 lenv cenv listenFirst) ∧
    (∀ cenv : ConnectEnv,
      (tcp_hole_punch_connect connect_delay_default max_attempts_default cenv
        CancelPoint.never).2.2 ≤ 25) := by
  refine ⟨rfl, rfl, rfl, simultaneous_open_timeout_only_listen, ?_⟩
  intro cenv
  have h := connectGo_time_bound cenv.outcome cenv.reuseFails cenv.phaseTime
    connect_delay_default CancelPoint.never (by norm_num [connect_delay_default])
    max_attempts_default 0
  have hb : ((max_attempts_default : Nat) : Rat) *
      (connect_delay_default + connect_attempt_timeout) = 25 := by
    norm_num [max_attempts_default, connect_delay_default, connect_attempt_timeout]
  rw [hb] at h
  exact h

/-- Witness for claim C9 at concrete inputs: two different caller timeouts
with equal listen behaviour give identical orchestration results, and the
connect half's running time at the defaults is at most 25. -/
theorem connect_half_fixed_defaults_witness :
    simultaneous_open 30 ⟨true, true, some 1⟩
      ⟨fun _ => AttemptOutcome.connectFail, fun _ => false, fun _ => 1⟩ true =
    simultaneous_open 40 ⟨true, true, some 1⟩
      ⟨fun _ => AttemptOutcome.connectFail, fun _ => false, fun _ => 1⟩ true ∧
    (tcp_hole_punch_connect connect_delay_default max_attempts_default
      ⟨fun _ => AttemptOutcome.connectFail, fun _ => false, fun _ => 1⟩
      CancelPoint.never).2.2 ≤ 25 :=
  ⟨connect_half_fixed_defaults.2.2.2.1 30 40 ⟨true, true, some 1⟩
      ⟨fun _ => AttemptOutcome.connectFail, fun _ => false, fun _ => 1⟩ true
      (by norm_num [tcp_hole_punch_listen]),
    connect_half_fixed_defaults.2.2.2.2
      ⟨fun _ => AttemptOutcome.connectFail, fun _ => false, fun _ => 1⟩⟩

/-- Claim C10: with `max_attempts = 0` the connect loop body never runs —
no sleep, no socket creation, no connect attempt, no raise — and the call
returns None immediately (an empty trace with zero elapsed time). -/
theorem zero_attempts_noop (delay : Rat) (env : ConnectEnv) (cancel : CancelPoint) :
    tcp_hole_punch_connect delay 0 env cancel = ([], ConnResult.noResult, 0) := rfl
